import Mathlib

/-!
Shallow embedding of `src/dividends/src/main.rs` (the furs-taxes dividend
report generator) and proofs about its claims.

Modelling conventions:
* Rust `f32` values are modelled by exact fractions (`Fx` below).  The
  source parses decimal strings into `f32`, multiplies, and formats with
  `"{:.2}"`; we keep the exact rational value of the decimal literals and
  round half-to-even at the 2-decimal formatting step (the rounding Rust's
  float formatter uses).  All concrete inputs used in witnesses are chosen
  so that the exact-fraction result and the f32 result agree digit for
  digit.
* CSV records are already-split rows (`List String`); `record.get(i)` is
  the list's optional indexing.  The header map is a structure of column
  indices (the Rust code indexes `headers[..]` with the header names; the
  claims under study all presuppose the named headers exist).
  `load_t212_dividends`/`t212Diagnostics` model the record loop over the
  records the reader yields successfully; the csv crate's default
  non-flexible reader additionally rejects any record whose field count
  differs from the header's, and `record?` turns that into failure of the
  whole load — that error path is modelled by `load_t212_dividends_run`,
  which takes the header field count and fails (`none`) when any record's
  length differs from it.
* `HashMap` lookups become association-list lookups (`List.lookup`).
* `log::info!`/`log::error!` diagnostics are modelled by the `RowResult`
  outcome of processing one row: `ignored` (the `continue` without a log),
  `skipped msg` (the `continue` after logging `msg`), `emitted d`.
* File I/O, the CSV reader itself and the reference-file loaders are
  outside the embedding: parsers take the materialized rows and lookup
  tables as arguments, the writer returns the list of lines it writes.
-/

namespace FursTaxes

/-- Exact-fraction model of the source's `f32` values: numerator and
denominator (all values constructed in this development keep `den > 0`).
No normalisation is performed, so all operations are plain `Int`
arithmetic. -/
structure Fx where
  num : Int
  den : Int
deriving DecidableEq

/-- `f32` multiplication (`tax * rate`, `tax *= 100.0` in the source),
modelled exactly. -/
def Fx.mul (a b : Fx) : Fx := ⟨a.num * b.num, a.den * b.den⟩

/-- Numeric value of a digit string, most significant first
(the integer part of Rust's float literal grammar). -/
def digitsVal (l : List Char) : Nat :=
  l.foldl (fun acc c => acc * 10 + (c.toNat - '0'.toNat)) 0

/-- The exponent suffix of Rust's `f32` grammar: empty, or
`('e'|'E') ['+'|'-'] Digits` with nothing after it.  `v` is the value of
the significand already parsed. -/
def parseExpPart (v : Fx) : List Char → Option Fx
  | [] => some v
  | c :: rest =>
    if c = 'e' ∨ c = 'E' then
      let p : Bool × List Char :=
        match rest with
        | '+' :: r => (false, r)
        | '-' :: r => (true, r)
        | r => (false, r)
      let ds := p.2.takeWhile Char.isDigit
      let r2 := p.2.dropWhile Char.isDigit
      if ds = [] ∨ r2 ≠ [] then none
      else if p.1 then some ⟨v.num, v.den * (10 : Int) ^ digitsVal ds⟩
      else some ⟨v.num * (10 : Int) ^ digitsVal ds, v.den⟩
    else none

/-- Rust `str::parse::<f32>` on the decimal grammar
`['+'|'-'] (Digits ['.' Digits?] | '.' Digits) Exp?`, returning the exact
value of the decimal literal.  (The `inf`/`NaN` forms Rust also accepts
have no finite value and never arise in this program's data; they are
omitted.) -/
def parseF (l : List Char) : Option Fx :=
  let sl : Int × List Char :=
    match l with
    | '+' :: r => (1, r)
    | '-' :: r => (-1, r)
    | r => (1, r)
  let ip := sl.2.takeWhile Char.isDigit
  let r1 := sl.2.dropWhile Char.isDigit
  match r1 with
  | '.' :: r2 =>
      let fp := r2.takeWhile Char.isDigit
      let r3 := r2.dropWhile Char.isDigit
      if ip = [] ∧ fp = [] then none
      else
        parseExpPart
          ⟨sl.1 * ((digitsVal ip * 10 ^ fp.length + digitsVal fp : Nat) : Int),
           ((10 ^ fp.length : Nat) : Int)⟩ r3
  | _ =>
      if ip = [] then none
      else parseExpPart ⟨sl.1 * (digitsVal ip : Int), 1⟩ r1

/-- `|q| * 100` rounded to the nearest integer, ties to even: the rounding
performed by Rust's `format!("{:.2}", _)` on the magnitude of the value. -/
def rhe100 (q : Fx) : Nat :=
  let na := q.num.natAbs * 100
  let nd := q.den.natAbs
  let f := na / nd
  let r := na % nd
  if 2 * r < nd then f
  else if nd < 2 * r then f + 1
  else if f % 2 = 0 then f else f + 1

/-- Two-digit zero-padded decimal rendering of `m < 100`. -/
def pad2 (m : Nat) : List Char :=
  if m < 10 then '0' :: (Nat.repr m).data else (Nat.repr m).data

/-- Rust `format!("{:.2}", q)`: sign, integer part, `'.'`, two decimal
digits. -/
def formatF2 (q : Fx) : List Char :=
  let n := rhe100 q
  (if q.num * q.den < 0 then ['-'] else []) ++
    (Nat.repr (n / 100)).data ++ '.' :: pad2 (n % 100)

/-- Rust `str::replacen(c, r, 1)` (with a one-char replacement): replace
the first occurrence of `c` by `r`, leave the rest unchanged. -/
def replaceFirst (c r : Char) : List Char → List Char
  | [] => []
  | x :: xs => if x = c then r :: xs else x :: replaceFirst c r xs

/-- Rust `str::replace(c, r)` with a one-char replacement: replace every
occurrence. -/
def replaceChar (c r : Char) (l : List Char) : List Char :=
  l.map fun x => if x = c then r else x

/-- Rust `str::replace(c, "")`: drop every occurrence of `c`. -/
def removeChar (c : Char) : List Char → List Char
  | [] => []
  | x :: xs => if x = c then removeChar c xs else x :: removeChar c xs

/-- Rust `str::split` on a character predicate: the list of (possibly
empty) chunks between separator characters.  As in Rust, the result is
never empty (`"".split(p)` yields one empty chunk). -/
def splitP (p : Char → Bool) : List Char → List (List Char)
  | [] => [[]]
  | c :: cs =>
    if p c then [] :: splitP p cs
    else
      match splitP p cs with
      | [] => [[c]]
      | w :: ws => (c :: w) :: ws

/-- The separator set `&[' ', 'T']` used to truncate a date-time string to
its date part. -/
def isSep (c : Char) : Bool := c = ' ' || c = 'T'

/-- The materialized `rates.xml` table: date string → currency code →
rate (modelled exactly, see `Fx`). -/
abbrev RateTable := List (String × List (String × Fx))

/-- `convert_value` from the source: EUR passthrough with the first `.`
turned into `,`; otherwise parse the amount, apply the GBX→GBP pence
rewrite, truncate the date, look up date then currency in the rate table,
multiply and format with 2 decimals and a decimal comma. -/
def convert_value (date tax currency : String) (rates : RateTable) :
    Option String :=
  if currency = "EUR" then some (String.mk (replaceFirst '.' ',' tax.data))
  else
    match parseF tax.data with
    | none => none
    | some t =>
      let p : String × Fx :=
        if currency = "GBX" then ("GBP", t.mul ⟨100, 1⟩) else (currency, t)
      match (splitP isSep date.data).head? with
      | none => none
      | some d =>
        match rates.lookup (String.mk d) with
        | none => none
        | some dateRate =>
          match dateRate.lookup p.1 with
          | none => none
          | some rate =>
            some (String.mk (replaceFirst '.' ',' (formatF2 (p.2.mul rate))))

/-- The canonical dividend record from the source. -/
structure Dividend where
  date : String
  payer_id : String
  name : String
  address : String
  country : String
  amount : String
  tax : String
deriving DecidableEq

/-- Outcome of processing one CSV record: `ignored` is the bare `continue`
(type/action mismatch, no diagnostic), `skipped msg` is `continue` after
logging `msg`, `emitted d` pushes `d` onto the dividend list. -/
inductive RowResult where
  | ignored : RowResult
  | skipped : String → RowResult
  | emitted : Dividend → RowResult
deriving DecidableEq

/-- `company_address` from the source: a `places.json` lookup by ticker. -/
def company_address (company_name : String)
    (places : List (String × String × String)) : Option (String × String) :=
  places.lookup company_name

/-- Column indices of the Trading212 export (`headers[name]` in the
source). -/
structure T212Headers where
  action : Nat
  time : Nat
  isin : Nat
  name : Nat
  total : Nat
  wtax : Nat
  wtaxCurrency : Nat
  ticker : Nat

/-- One iteration of the record loop of `load_t212_dividends`: the action
filter, the seven field presence checks with their log messages, the
address lookup and the tax conversion. -/
def processT212Row (h : T212Headers) (places : List (String × String × String))
    (rates : RateTable) (record : List String) : RowResult :=
  if record[h.action]? ≠ some "Dividend (Ordinary)" then .ignored
  else
    match record[h.time]? with
    | none => .skipped "Date was not present"
    | some date =>
      match record[h.isin]? with
      | none => .skipped "Payer was not present"
      | some isin =>
        match record[h.name]? with
        | none => .skipped "Missing payer name"
        | some name =>
          match record[h.total]? with
          | none => .skipped "Missing dividend EUR value"
          | some value =>
            match record[h.wtax]? with
            | none => .skipped "Missing witholding tax"
            | some witholding_tax =>
              match record[h.wtaxCurrency]? with
              | none => .skipped "Missing witholding tax currency"
              | some witholding_tax_currency =>
                match record[h.ticker]? with
                | none => .skipped "Missing ticker"
                | some ticker =>
                  match company_address ticker places with
                  | none =>
                    .skipped ("No address for ISIN " ++ isin ++ ", " ++
                      ticker ++ ", " ++ name)
                  | some (address, country) =>
                    match convert_value date witholding_tax
                        witholding_tax_currency rates with
                    | none =>
                      .skipped ("Did not find an exchange rate for " ++
                        witholding_tax_currency ++ "!")
                    | some tax =>
                      .emitted ⟨date, isin, name, address, country, value, tax⟩

/-- `load_t212_dividends` over materialized records: the dividends pushed
by the loop, in order. -/
def load_t212_dividends (h : T212Headers)
    (places : List (String × String × String)) (rates : RateTable)
    (records : List (List String)) : List Dividend :=
  records.filterMap fun r =>
    match processT212Row h places rates r with
    | .emitted d => some d
    | _ => none

/-- The diagnostics logged by the `load_t212_dividends` loop, in order. -/
def t212Diagnostics (h : T212Headers)
    (places : List (String × String × String)) (rates : RateTable)
    (records : List (List String)) : List String :=
  records.filterMap fun r =>
    match processT212Row h places rates r with
    | .skipped m => some m
    | _ => none

/-- `load_t212_dividends` including the `record?` error path: with the csv
crate's default non-flexible reader, a record whose field count differs
from the header's field count `n` is yielded as an `Err` (kind
`UnequalLengths`), which `record?` propagates, making the whole load fail
(`none`) — no skip, no surviving dividends.  When every record has the
header's field count, the run completes with the loop's dividends and
diagnostics. -/
def load_t212_dividends_run (n : Nat) (h : T212Headers)
    (places : List (String × String × String)) (rates : RateTable) :
    List (List String) → Option (List Dividend × List String)
  | [] => some ([], [])
  | r :: rest =>
    if r.length = n then
      match load_t212_dividends_run n h places rates rest with
      | none => none
      | some (ds, ms) =>
        match processT212Row h places rates r with
        | .ignored => some (ds, ms)
        | .skipped m => some (ds, m :: ms)
        | .emitted d => some (d :: ds, ms)
    else none

/-- Column indices of the Revolut export. -/
structure RevHeaders where
  typ : Nat
  date : Nat
  ticker : Nat
  totalAmount : Nat

/-- One iteration of the record loop of `load_revolut_dividends`: the type
filter, the field presence checks, the `$`-stripping of the amount, the
forced-USD conversion, the `revolut.json` alias lookup, and the emitted
dividend with `tax` fixed to `"0.00"`. -/
def processRevRow (h : RevHeaders) (places : List (String × String × String))
    (rates : RateTable) (info : List (String × String × String))
    (record : List String) : RowResult :=
  if record[h.typ]? ≠ some "DIVIDEND" then .ignored
  else
    match record[h.date]? with
    | none => .skipped "Missing dividend date"
    | some date =>
      match record[h.ticker]? with
      | none => .skipped "Missing ticker"
      | some ticker =>
        match company_address ticker places with
        | none => .skipped ("No address for " ++ ticker)
        | some (address, country) =>
          match record[h.totalAmount]? with
          | none => .skipped "Missing amount"
          | some amount =>
            let amount := String.mk (removeChar '$' amount.data)
            match convert_value date amount "USD" rates with
            | none => .skipped "Unable to convert value"
            | some amount =>
              match info.lookup ticker with
              | none => .skipped ("Missing revolut definition for " ++ ticker)
              | some (isin, name) =>
                .emitted ⟨date, isin, name, address, country, amount, "0.00"⟩

/-- `load_revolut_dividends` over materialized records. -/
def load_revolut_dividends (h : RevHeaders)
    (places : List (String × String × String)) (rates : RateTable)
    (info : List (String × String × String))
    (records : List (List String)) : List Dividend :=
  records.filterMap fun r =>
    match processRevRow h places rates info r with
    | .emitted d => some d
    | _ => none

/-- The diagnostics logged by the `load_revolut_dividends` loop, in
order. -/
def revDiagnostics (h : RevHeaders)
    (places : List (String × String × String)) (rates : RateTable)
    (info : List (String × String × String))
    (records : List (List String)) : List String :=
  records.filterMap fun r =>
    match processRevRow h places rates info r with
    | .skipped m => some m
    | _ => none

/-- Rust `Vec::join` on chunk lists: the chunks separated by `sep`. -/
def joinSep (sep : List Char) : List (List Char) → List Char
  | [] => []
  | [w] => w
  | w :: ws => w ++ sep ++ joinSep sep ws

/-- The `DD.MM.YYYY` date rearrangement of `write_output`: split the
date-only part on `-`, reverse the pieces, join with `.`. -/
def outputDate (dateOnly : List Char) : List Char :=
  joinSep ['.'] ((splitP (fun c => c = '-') dateOnly).reverse)

/-- One data line of `write_output`: truncate the date at the first space
or `T` (skipping the dividend if that fails), rearrange it, replace every
`.` of the amount by `,`, and join the 11 semicolon-separated fields
`date;;payer_id;name;address;country;1;amount;tax;country;`. -/
def formatLine (d : Dividend) : Option String :=
  match (splitP isSep d.date.data).head? with
  | none => none
  | some dateC =>
    some (String.mk
      (outputDate dateC ++ [';', ';'] ++ d.payer_id.data ++ [';'] ++
        d.name.data ++ [';'] ++ d.address.data ++ [';'] ++
        d.country.data ++ [';', '1', ';'] ++
        replaceChar '.' ',' d.amount.data ++ [';'] ++ d.tax.data ++
        [';'] ++ d.country.data ++ [';']))

/-- The data lines of `write_output`, in dividend order. -/
def writeLines (dividends : List Dividend) : List String :=
  dividends.filterMap formatLine

/-- `write_output`: the two metadata lines and the column-header comment
line — each followed by a blank line, since the source's three `writeln!`
format strings themselves end in a newline — then one line per
dividend. -/
def write_output (tax_id : String) (dividends : List Dividend) : List String :=
  "#FormCode;Version;TaxPayerID;TaxPayerType;DocumentWorkflowID;;;;;;" :: "" ::
    ("DOH-DIV;3.9;" ++ tax_id ++ ";FO;O;;;;;;") :: "" ::
    "#datum prejema dividende;davčna številka izplačevalca dividend;identifikacijska  številka izplačevalca dividend;naziv izplačevalca dividend;naslov izplačevalca dividend;država izplačevalca dividend;vrsta dividende;znesek dividend;tuji davek;država vira;uveljavljam oprostitev po mednarodni pogodbi" :: "" ::
    writeLines dividends

/-! ### Helper lemmas -/

theorem splitP_ne_nil (p : Char → Bool) (l : List Char) : splitP p l ≠ [] := by
  induction l with
  | nil => simp [splitP]
  | cons c cs ih =>
    simp only [splitP]
    split
    · simp
    · cases h : splitP p cs with
      | nil => simp
      | cons w ws => simp

theorem splitP_head (p : Char → Bool) (l : List Char) :
    (splitP p l).head? = some (l.takeWhile fun c => !p c) := by
  induction l with
  | nil => rfl
  | cons c cs ih =>
    simp only [splitP, List.takeWhile]
    by_cases h : p c = true
    · simp [h]
    · cases h2 : splitP p cs with
      | nil => exact absurd h2 (splitP_ne_nil p cs)
      | cons w ws =>
        rw [h2] at ih
        simp at ih
        simp [h, h2, ih]

theorem replaceFirst_spec (c r : Char) (l : List Char) :
    (c ∉ l ∧ replaceFirst c r l = l) ∨
      ∃ a b, l = a ++ c :: b ∧ c ∉ a ∧ replaceFirst c r l = a ++ r :: b := by
  induction l with
  | nil => exact Or.inl ⟨by simp, rfl⟩
  | cons x xs ih =>
    by_cases hx : x = c
    · subst hx
      exact Or.inr ⟨[], xs, by simp, by simp, by simp [replaceFirst]⟩
    · rcases ih with ⟨hmem, heq⟩ | ⟨a, b, hl, hmem, heq⟩
      · exact Or.inl ⟨by simp [hmem, Ne.symm (by simpa using hx)],
          by simp [replaceFirst, hx, heq]⟩
      · exact Or.inr ⟨x :: a, b, by simp [hl],
          by simp [hmem, Ne.symm (by simpa using hx)],
          by simp [replaceFirst, hx, heq]⟩

theorem removeChar_eq_filter (c : Char) (l : List Char) :
    removeChar c l = l.filter fun x => x ≠ c := by
  induction l with
  | nil => rfl
  | cons x xs ih =>
    by_cases hx : x = c <;> simp [removeChar, List.filter, hx, ih]

theorem splitP_sepFree (p : Char → Bool) (a : List Char)
    (ha : ∀ c ∈ a, p c = false) : splitP p a = [a] := by
  induction a with
  | nil => rfl
  | cons x xs ih =>
    have hx : p x = false := ha x (by simp)
    have hxs : splitP p xs = [xs] := ih fun c hc => ha c (by simp [hc])
    simp [splitP, hx, hxs]

theorem splitP_append (p : Char → Bool) (a : List Char) (s : Char)
    (rest : List Char) (ha : ∀ c ∈ a, p c = false) (hs : p s = true) :
    splitP p (a ++ s :: rest) = a :: splitP p rest := by
  induction a with
  | nil => simp [splitP, hs]
  | cons x xs ih =>
    have hx : p x = false := ha x (by simp)
    have hxs := ih fun c hc => ha c (by simp [hc])
    simp only [List.cons_append, splitP, hx, List.append_eq]
    rw [hxs]
    simp

theorem mem_splitP (p : Char → Bool) (l w : List Char) (c : Char)
    (hw : w ∈ splitP p l) (hc : c ∈ w) : c ∈ l := by
  induction l generalizing w with
  | nil =>
    simp [splitP] at hw
    subst hw
    simp at hc
  | cons x xs ih =>
    simp only [splitP] at hw
    by_cases hx : p x = true
    · simp [hx] at hw
      rcases hw with hw | hw
      · subst hw; simp at hc
      · exact List.mem_cons_of_mem x (ih w hw hc)
    · cases h2 : splitP p xs with
      | nil => exact absurd h2 (splitP_ne_nil p xs)
      | cons v vs =>
        rw [eq_false_of_ne_true hx, if_neg (by simp), h2] at hw
        simp at hw
        rcases hw with hw | hw
        · subst hw
          rcases List.mem_cons.mp hc with hc | hc
          · simp [hc]
          · exact List.mem_cons_of_mem x (ih v (by simp [h2]) hc)
        · exact List.mem_cons_of_mem x (ih w (by simp [h2, hw]) hc)

theorem mem_joinSep (sep : List Char) (L : List (List Char)) (c : Char)
    (hc : c ∈ joinSep sep L) : c ∈ sep ∨ ∃ w ∈ L, c ∈ w := by
  induction L with
  | nil => simp [joinSep] at hc
  | cons w ws ih =>
    cases ws with
    | nil =>
      simp only [joinSep] at hc
      exact Or.inr ⟨w, by simp, hc⟩
    | cons v vs =>
      simp only [joinSep, List.append_assoc, List.mem_append] at hc
      rcases hc with h | h | h
      · exact Or.inr ⟨w, by simp, h⟩
      · exact Or.inl h
      · rcases ih h with h | ⟨u, hu, hcu⟩
        · exact Or.inl h
        · exact Or.inr ⟨u, List.mem_cons_of_mem w hu, hcu⟩

theorem mem_outputDate (dc : List Char) (c : Char) (hc : c ∈ outputDate dc) :
    c = '.' ∨ c ∈ dc := by
  rcases mem_joinSep ['.'] _ c hc with h | ⟨w, hw, hcw⟩
  · simp at h
    exact Or.inl h
  · exact Or.inr (mem_splitP _ dc w c (by simpa using hw) hcw)

theorem mem_replaceChar (c r x : Char) (l : List Char)
    (hx : x ∈ replaceChar c r l) : x = r ∨ x ∈ l := by
  simp only [replaceChar, List.mem_map] at hx
  rcases hx with ⟨y, hy, hxy⟩
  by_cases hyc : y = c
  · simp [hyc] at hxy
    exact Or.inl hxy.symm
  · simp [hyc] at hxy
    exact Or.inr (hxy ▸ hy)

theorem load_t212_middle (h : T212Headers)
    (places : List (String × String × String)) (rates : RateTable)
    (pre post : List (List String)) (r : List String)
    (hr : ∀ d, processT212Row h places rates r ≠ .emitted d) :
    load_t212_dividends h places rates (pre ++ r :: post) =
      load_t212_dividends h places rates pre ++
        load_t212_dividends h places rates post := by
  unfold load_t212_dividends
  rw [List.filterMap_append, List.filterMap_cons]
  cases hp : processT212Row h places rates r with
  | ignored => simp
  | skipped m => simp
  | emitted d => exact absurd hp (hr d)

theorem skipped_mem_t212Diagnostics (h : T212Headers)
    (places : List (String × String × String)) (rates : RateTable)
    (pre post : List (List String)) (r : List String) (m : String)
    (hr : processT212Row h places rates r = .skipped m) :
    m ∈ t212Diagnostics h places rates (pre ++ r :: post) := by
  unfold t212Diagnostics
  rw [List.filterMap_append, List.filterMap_cons, hr]
  simp

theorem splitP_joinSep (p : Char → Bool) (s : Char) (hs : p s = true)
    (chunks : List (List Char)) (hne : chunks ≠ [])
    (hfree : ∀ w ∈ chunks, ∀ c ∈ w, p c = false) :
    splitP p (joinSep [s] chunks) = chunks := by
  induction chunks with
  | nil => cases hne rfl
  | cons w ws ih =>
    cases ws with
    | nil => exact splitP_sepFree p w (hfree w (by simp))
    | cons v vs =>
      have hj : joinSep [s] (w :: v :: vs) = w ++ s :: joinSep [s] (v :: vs) := by
        simp [joinSep]
      rw [hj, splitP_append p w s _ (hfree w (by simp)) hs,
        ih (by simp) (fun u hu => hfree u (List.mem_cons_of_mem w hu))]

theorem formatLine_joinSep (d : Dividend) :
    formatLine d = some (String.mk (joinSep [';']
      [outputDate (d.date.data.takeWhile fun c => !isSep c), [],
        d.payer_id.data, d.name.data, d.address.data, d.country.data, ['1'],
        replaceChar '.' ',' d.amount.data, d.tax.data, d.country.data, []])) := by
  unfold formatLine
  rw [splitP_head]
  simp [joinSep]

theorem mem_takeWhile_mem (p : Char → Bool) (l : List Char) (c : Char)
    (hc : c ∈ l.takeWhile p) : c ∈ l := by
  induction l with
  | nil => simp [List.takeWhile] at hc
  | cons x xs ih =>
    rw [List.takeWhile] at hc
    by_cases h : p x = true
    · rw [h] at hc
      simp at hc
      rcases hc with hc | hc
      · simp [hc]
      · exact List.mem_cons_of_mem x (ih hc)
    · rw [eq_false_of_ne_true h] at hc
      simp at hc

/-! ### Claim theorems -/

/-- Claim C1, counterexample: on the claim's exact FormatB scenario (type
`"DIVIDEND"`, amount `"$100.00"`, date `"2023-01-02"`, ticker present in
both directories, rate table entry `USD ↦ 1.05` for that date) the
pipeline emits one dividend whose amount is `"105,00"`, not `"104,76"`:
the source computes `rawAmount * rate = 100.00 × 1.05`, not a division. -/
theorem C1_counterexample :
    (load_revolut_dividends ⟨0, 1, 2, 3⟩ [("AAPL", "1 Infinite Loop", "US")]
        [("2023-01-02", [("USD", ⟨21, 20⟩)])]
        [("AAPL", "US0378331005", "Apple")]
        [["DIVIDEND", "2023-01-02", "AAPL", "$100.00"]]).map Dividend.amount
      = ["105,00"] ∧ "105,00" ≠ "104,76" := by decide

/-- Claim C1 as amended: for a FormatB row with type `"DIVIDEND"`, amount
`"$100.00"`, date `"2023-01-02"`, a ticker present in both directories,
and a rate table entry mapping that date and `"USD"` to 1.05, the pipeline
emits exactly one Dividend whose amount field is the string `"105,00"`
(`rawAmount * rate`, 2 decimals, comma separator). -/
theorem C1_amended_revolut_usd_amount :
    load_revolut_dividends ⟨0, 1, 2, 3⟩ [("AAPL", "1 Infinite Loop", "US")]
        [("2023-01-02", [("USD", ⟨21, 20⟩)])]
        [("AAPL", "US0378331005", "Apple")]
        [["DIVIDEND", "2023-01-02", "AAPL", "$100.00"]]
      = [⟨"2023-01-02", "US0378331005", "Apple", "1 Infinite Loop", "US",
          "105,00", "0.00"⟩] := by decide

/-- Claim C2: for every amount string, date and rate table, conversion
with currency code `"EUR"` succeeds (no numeric parsing, so even
non-numeric amounts pass through) and returns the amount with its first
`'.'` replaced by `','` and otherwise character-for-character
unchanged. -/
theorem C2_eur_passthrough (date tax : String) (rates : RateTable) :
    ∃ r : String, convert_value date tax "EUR" rates = some r ∧
      (('.' ∉ tax.data ∧ r = tax) ∨
        ∃ a b, tax.data = a ++ '.' :: b ∧ '.' ∉ a ∧ r.data = a ++ ',' :: b) := by
  refine ⟨String.mk (replaceFirst '.' ',' tax.data), by simp [convert_value], ?_⟩
  rcases replaceFirst_spec '.' ',' tax.data with ⟨hm, he⟩ | ⟨a, b, hl, hm, he⟩
  · exact Or.inl ⟨hm, by rw [he]⟩
  · exact Or.inr ⟨a, b, hl, hm, he⟩

/-- Claim C3: for every parseable amount in currency `"GBX"` whose
date-only part is in the rate table with a `"GBP"` entry, conversion
succeeds and the result is `(amount × 100) × rate("GBP", date)` formatted
to 2 decimals with a comma as decimal separator. -/
theorem C3_gbx_conversion (date tax : String) (rates : RateTable) (q : Fx)
    (dr : List (String × Fx)) (rate : Fx)
    (hq : parseF tax.data = some q)
    (hd : rates.lookup (String.mk (date.data.takeWhile fun c => !isSep c)) =
      some dr)
    (hr : dr.lookup "GBP" = some rate) :
    convert_value date tax "GBX" rates =
      some (String.mk (replaceFirst '.' ','
        (formatF2 ((q.mul ⟨100, 1⟩).mul rate)))) := by
  simp [convert_value, hq, splitP_head, hd, hr]

/-- Claim C3 witness: `"2.5"` GBX on a date whose `"GBP"` rate is 2
converts to `(2.5 × 100) × 2 = 500`, formatted `"500,00"`. -/
theorem C3_gbx_conversion_witness :
    convert_value "2023-01-02" "2.5" "GBX"
        [("2023-01-02", [("GBP", ⟨2, 1⟩)])] =
      some (String.mk (replaceFirst '.' ','
        (formatF2 ((Fx.mul ⟨25, 10⟩ ⟨100, 1⟩).mul ⟨2, 1⟩)))) ∧
      convert_value "2023-01-02" "2.5" "GBX"
        [("2023-01-02", [("GBP", ⟨2, 1⟩)])] = some "500,00" :=
  ⟨C3_gbx_conversion "2023-01-02" "2.5" [("2023-01-02", [("GBP", ⟨2, 1⟩)])]
      ⟨25, 10⟩ [("GBP", ⟨2, 1⟩)] ⟨2, 1⟩ (by decide) (by decide) (by decide),
    by decide⟩

/-- Claim C4: a non-EUR conversion whose truncated date is absent from the
rate table fails (returns `none`, no nearest-date fallback); a row whose
processing is `skipped` contributes no Dividend while the rows before and
after it are still processed, and its diagnostic is logged; in
particular, a Trading212 row whose tax conversion fails is skipped with
the exchange-rate diagnostic. -/
theorem C4_missing_rate_date :
    (∀ (date tax currency : String) (rates : RateTable), currency ≠ "EUR" →
        rates.lookup (String.mk (date.data.takeWhile fun c => !isSep c)) =
          none →
        convert_value date tax currency rates = none) ∧
      (∀ (h : T212Headers) (places : List (String × String × String))
          (rates : RateTable) (pre post : List (List String))
          (r : List String) (m : String),
          processT212Row h places rates r = .skipped m →
          load_t212_dividends h places rates (pre ++ r :: post) =
              load_t212_dividends h places rates pre ++
                load_t212_dividends h places rates post ∧
            m ∈ t212Diagnostics h places rates (pre ++ r :: post)) ∧
      (∀ (places : List (String × String × String)) (rates : RateTable)
          (date isin nm value wtax cur tick addr ctry : String),
          company_address tick places = some (addr, ctry) →
          convert_value date wtax cur rates = none →
          processT212Row ⟨0, 1, 2, 3, 4, 5, 6, 7⟩ places rates
              ["Dividend (Ordinary)", date, isin, nm, value, wtax, cur,
                tick] =
            .skipped ("Did not find an exchange rate for " ++ cur ++ "!")) := by
  refine ⟨?_, ?_, ?_⟩
  · intro date tax currency rates hcur hmiss
    unfold convert_value
    rw [if_neg hcur]
    cases hp : parseF tax.data with
    | none => rfl
    | some t => simp [splitP_head, hmiss]
  · intro h places rates pre post r m hr
    exact ⟨load_t212_middle h places rates pre post r
        (fun d hd => by rw [hr] at hd; exact RowResult.noConfusion hd),
      skipped_mem_t212Diagnostics h places rates pre post r m hr⟩
  · intro places rates date isin nm value wtax cur tick addr ctry hca hcv
    simp [processT212Row, hca, hcv]

/-- Claim C4 witness: `"USD"` on a date absent from an empty rate table
fails to convert; a skipped Trading212 row yields no dividend but its
diagnostic; a concrete row whose conversion fails is skipped with the
exchange-rate message. -/
theorem C4_missing_rate_date_witness :
    convert_value "2023-09-09" "1.0" "USD" [] = none ∧
      (load_t212_dividends ⟨0, 1, 2, 3, 4, 5, 6, 7⟩ [] []
            [["Dividend (Ordinary)"]] =
          load_t212_dividends ⟨0, 1, 2, 3, 4, 5, 6, 7⟩ [] [] [] ++
            load_t212_dividends ⟨0, 1, 2, 3, 4, 5, 6, 7⟩ [] [] [] ∧
        "Date was not present" ∈
          t212Diagnostics ⟨0, 1, 2, 3, 4, 5, 6, 7⟩ [] []
            [["Dividend (Ordinary)"]]) ∧
      processT212Row ⟨0, 1, 2, 3, 4, 5, 6, 7⟩ [("T", "A", "US")] []
          ["Dividend (Ordinary)", "2023-09-09", "US1", "N", "1.0", "1.0",
            "USD", "T"] =
        .skipped ("Did not find an exchange rate for " ++ "USD" ++ "!") :=
  ⟨C4_missing_rate_date.1 "2023-09-09" "1.0" "USD" [] (by decide) (by decide),
    C4_missing_rate_date.2.1 ⟨0, 1, 2, 3, 4, 5, 6, 7⟩ [] [] [] []
      ["Dividend (Ordinary)"] "Date was not present" (by decide),
    C4_missing_rate_date.2.2 [("T", "A", "US")] [] "2023-09-09" "US1" "N"
      "1.0" "1.0" "USD" "T" "A" "US" (by decide) (by decide)⟩

/-- Claim C5, counterexample: a FormatB (Revolut) dividend has tax exactly
`"0.00"`, which contains a `'.'` and no comma, and the written report line
carries that `"0.00"` verbatim — so the tax field is not always in the
comma decimal convention. -/
theorem C5_counterexample :
    (load_revolut_dividends ⟨0, 1, 2, 3⟩ [("MSFT", "One Microsoft Way", "US")]
        [("2023-03-01", [("USD", ⟨1, 1⟩)])]
        [("MSFT", "US5949181045", "Microsoft")]
        [["DIVIDEND", "2023-03-01", "MSFT", "$50.00"]]).map Dividend.tax
      = ["0.00"] ∧ '.' ∈ "0.00".data ∧
      writeLines (load_revolut_dividends ⟨0, 1, 2, 3⟩
          [("MSFT", "One Microsoft Way", "US")]
          [("2023-03-01", [("USD", ⟨1, 1⟩)])]
          [("MSFT", "US5949181045", "Microsoft")]
          [["DIVIDEND", "2023-03-01", "MSFT", "$50.00"]])
        = ["01.03.2023;;US5949181045;Microsoft;One Microsoft Way;US;1;50,00;0.00;US;"] := by
  decide

/-- Claim C5 as amended: every Dividend emitted by the FormatB (Revolut)
parser has tax fixed to the literal string `"0.00"` — with a dot, not a
comma — and the writer copies the tax field verbatim into the report
line. -/
theorem C5_amended_revolut_tax_literal (h : RevHeaders)
    (places info : List (String × String × String)) (rates : RateTable)
    (r : List String) (d : Dividend)
    (he : processRevRow h places rates info r = .emitted d) :
    d.tax = "0.00" := by
  simp only [processRevRow] at he
  repeat' (first | exact RowResult.noConfusion he | split at he)
  injection he with h2
  rw [← h2]

/-- Claim C5 amended witness: the FormatB parser applied to a concrete
qualifying row emits a dividend, and its tax is `"0.00"`. -/
theorem C5_amended_revolut_tax_literal_witness :
    processRevRow ⟨0, 1, 2, 3⟩ [("AMZN", "410 Terry Ave", "US")]
        [("2023-02-03", [("USD", ⟨1, 1⟩)])] [("AMZN", "US0231351067", "Amazon")]
        ["DIVIDEND", "2023-02-03", "AMZN", "$7.00"]
      = .emitted ⟨"2023-02-03", "US0231351067", "Amazon", "410 Terry Ave",
          "US", "7,00", "0.00"⟩ ∧
      Dividend.tax ⟨"2023-02-03", "US0231351067", "Amazon", "410 Terry Ave",
          "US", "7,00", "0.00"⟩ = "0.00" :=
  ⟨by decide,
    C5_amended_revolut_tax_literal ⟨0, 1, 2, 3⟩
      [("AMZN", "410 Terry Ave", "US")] [("AMZN", "US0231351067", "Amazon")]
      [("2023-02-03", [("USD", ⟨1, 1⟩)])]
      ["DIVIDEND", "2023-02-03", "AMZN", "$7.00"]
      ⟨"2023-02-03", "US0231351067", "Amazon", "410 Terry Ave", "US",
        "7,00", "0.00"⟩ (by decide)⟩

/-- Claim C6: every written report line carries as its date the input date
truncated at the first space or `'T'`, split on `'-'`, reversed and
re-joined with `'.'` (`outputDate` is by definition that split-reverse-join
composition); the transform is a function, hence deterministic, and
`"2023-05-09T10:00:00"` produces `"09.05.2023"`. -/
theorem C6_output_date_transform :
    (∀ d : Dividend, formatLine d =
        some (String.mk
          (outputDate (d.date.data.takeWhile fun c => !isSep c) ++
            [';', ';'] ++ d.payer_id.data ++ [';'] ++ d.name.data ++ [';'] ++
            d.address.data ++ [';'] ++ d.country.data ++ [';', '1', ';'] ++
            replaceChar '.' ',' d.amount.data ++ [';'] ++ d.tax.data ++
            [';'] ++ d.country.data ++ [';']))) ∧
      outputDate ("2023-05-09T10:00:00".data.takeWhile fun c => !isSep c) =
        "09.05.2023".data := by
  constructor
  · intro d
    simp only [formatLine, splitP_head]
  · decide

/-- Claim C7: every emitted report line, split on `';'`, consists of
exactly the 11 fields reformatted date, blank, payer id, name, address,
country, the literal `1`, the amount with `'.'` replaced by `','`, the
tax, the country again, and a blank trailing field — provided the
dividend's own fields contain no `';'`. -/
theorem C7_eleven_fields (d : Dividend) (l : String)
    (hl : formatLine d = some l)
    (h1 : ∀ c ∈ d.date.data, c ≠ ';') (h2 : ∀ c ∈ d.payer_id.data, c ≠ ';')
    (h3 : ∀ c ∈ d.name.data, c ≠ ';') (h4 : ∀ c ∈ d.address.data, c ≠ ';')
    (h5 : ∀ c ∈ d.country.data, c ≠ ';') (h6 : ∀ c ∈ d.amount.data, c ≠ ';')
    (h7 : ∀ c ∈ d.tax.data, c ≠ ';') :
    splitP (fun c => c = ';') l.data =
      [outputDate (d.date.data.takeWhile fun c => !isSep c), [],
        d.payer_id.data, d.name.data, d.address.data, d.country.data, ['1'],
        replaceChar '.' ',' d.amount.data, d.tax.data, d.country.data, []] := by
  have h0 : String.mk (joinSep [';']
      [outputDate (d.date.data.takeWhile fun c => !isSep c), [],
        d.payer_id.data, d.name.data, d.address.data, d.country.data, ['1'],
        replaceChar '.' ',' d.amount.data, d.tax.data, d.country.data, []]) =
      l :=
    Option.some_inj.mp ((formatLine_joinSep d).symm.trans hl)
  subst h0
  refine splitP_joinSep _ ';' (by decide) _ (by simp) ?_
  intro w hw
  simp only [List.mem_cons, List.not_mem_nil, or_false] at hw
  rcases hw with rfl | rfl | rfl | rfl | rfl | rfl | rfl | rfl | rfl | rfl | rfl
  · intro c hc
    rcases mem_outputDate _ c hc with h | h
    · subst h; decide
    · exact decide_eq_false (h1 c (mem_takeWhile_mem _ _ c h))
  · intro c hc; simp at hc
  · exact fun c hc => decide_eq_false (h2 c hc)
  · exact fun c hc => decide_eq_false (h3 c hc)
  · exact fun c hc => decide_eq_false (h4 c hc)
  · exact fun c hc => decide_eq_false (h5 c hc)
  · intro c hc; simp at hc; subst hc; decide
  · intro c hc
    rcases mem_replaceChar '.' ',' c _ hc with h | h
    · subst h; decide
    · exact decide_eq_false (h6 c h)
  · exact fun c hc => decide_eq_false (h7 c hc)
  · exact fun c hc => decide_eq_false (h5 c hc)
  · intro c hc; simp at hc

/-- Claim C7 witness: the line written for a concrete dividend splits into
exactly the 11 expected fields. -/
theorem C7_eleven_fields_witness :
    splitP (fun c => c = ';')
        (String.data "09.05.2023;;US1;Nm;Addr;US;1;12,34;0,56;US;") =
      [outputDate ("2023-05-09T10:00:00".data.takeWhile fun c => !isSep c),
        [], "US1".data, "Nm".data, "Addr".data, "US".data, ['1'],
        replaceChar '.' ',' "12.34".data, "0,56".data, "US".data, []] :=
  C7_eleven_fields
    ⟨"2023-05-09T10:00:00", "US1", "Nm", "Addr", "US", "12.34", "0,56"⟩
    "09.05.2023;;US1;Nm;Addr;US;1;12,34;0,56;US;" (by decide) (by decide)
    (by decide) (by decide) (by decide) (by decide) (by decide) (by decide)

/-- Claim C8, counterexample: on the claim's scenario 3 — a FormatA row
whose ticker column is physically missing (7 fields against the header's
8) — the run does not complete with one diagnostic: the csv reader's
default non-flexible mode yields the short record as an `Err`, `record?`
propagates it, and the whole load fails, producing neither dividends nor
loop diagnostics. -/
theorem C8_counterexample :
    load_t212_dividends_run 8 ⟨0, 1, 2, 3, 4, 5, 6, 7⟩ [("T", "A", "US")] []
        [["Dividend (Ordinary)", "2023-01-02", "US1", "N", "1.0", "0.5",
          "USD"]] = none ∧
      (none : Option (List Dividend × List String)) ≠
        some ([], ["Missing ticker"]) := by decide

/-- Claim C8 as amended: a FormatA row whose action column is not
`"Dividend (Ordinary)"` is silently ignored; but a row with a column
physically absent (field count differing from the header's) is not
skipped per row — it aborts the entire load via the reader error at
`record?` — while a run whose records all have the header's field count
completes with the loop's dividends and diagnostics; and for every record
the reader delivers (full length, header indices in range) the seven
missing-field skip branches are unreachable: the row's outcome is
ignored, an address-lookup skip, a conversion skip, or an emitted
dividend. -/
theorem C8_reader_aborts_on_missing_column :
    (∀ (h : T212Headers) (places : List (String × String × String))
        (rates : RateTable) (r : List String),
        r[h.action]? ≠ some "Dividend (Ordinary)" →
        processT212Row h places rates r = .ignored) ∧
      (∀ (n : Nat) (h : T212Headers)
          (places : List (String × String × String)) (rates : RateTable)
          (pre post : List (List String)) (r : List String),
          r.length ≠ n →
          load_t212_dividends_run n h places rates (pre ++ r :: post) =
            none) ∧
      (∀ (n : Nat) (h : T212Headers)
          (places : List (String × String × String)) (rates : RateTable)
          (records : List (List String)),
          (∀ q ∈ records, q.length = n) →
          load_t212_dividends_run n h places rates records =
            some (load_t212_dividends h places rates records,
              t212Diagnostics h places rates records)) ∧
      ∀ (n : Nat) (h : T212Headers)
          (places : List (String × String × String)) (rates : RateTable)
          (r : List String),
          h.action < n → h.time < n → h.isin < n → h.name < n →
          h.total < n → h.wtax < n → h.wtaxCurrency < n → h.ticker < n →
          r.length = n →
          (processT212Row h places rates r = .ignored ∨
            (∃ isin tick nm, processT212Row h places rates r =
              .skipped ("No address for ISIN " ++ isin ++ ", " ++ tick ++
                ", " ++ nm)) ∨
            (∃ cur, processT212Row h places rates r =
              .skipped ("Did not find an exchange rate for " ++ cur ++
                "!")) ∨
            ∃ d, processT212Row h places rates r = .emitted d) := by
  refine ⟨?_, ?_, ?_, ?_⟩
  · intro h places rates r h0
    simp [processT212Row, h0]
  · intro n h places rates pre post r hlen
    induction pre with
    | nil => simp [load_t212_dividends_run, hlen]
    | cons q qs ih =>
      simp only [List.cons_append, load_t212_dividends_run, List.append_eq,
        ih]
      split <;> rfl
  · intro n h places rates records
    induction records with
    | nil => intro _; rfl
    | cons r rest ih =>
      intro hall
      have hr : r.length = n := hall r (by simp)
      have hrest := ih fun q hq => hall q (by simp [hq])
      simp only [load_t212_dividends_run, hr, if_pos, hrest,
        load_t212_dividends, t212Diagnostics, List.filterMap_cons]
      cases hp : processT212Row h places rates r <;> simp [hp]
  · intro n h places rates r ha ht hi hn hto hw hwc htk hlen
    by_cases hmatch : r[h.action]? = some "Dividend (Ordinary)"
    · obtain ⟨date, hdate⟩ : ∃ x, r[h.time]? = some x :=
        ⟨_, List.getElem?_eq_getElem (by omega)⟩
      obtain ⟨isin, hisin⟩ : ∃ x, r[h.isin]? = some x :=
        ⟨_, List.getElem?_eq_getElem (by omega)⟩
      obtain ⟨nm, hnm⟩ : ∃ x, r[h.name]? = some x :=
        ⟨_, List.getElem?_eq_getElem (by omega)⟩
      obtain ⟨value, hvalue⟩ : ∃ x, r[h.total]? = some x :=
        ⟨_, List.getElem?_eq_getElem (by omega)⟩
      obtain ⟨wt, hwt⟩ : ∃ x, r[h.wtax]? = some x :=
        ⟨_, List.getElem?_eq_getElem (by omega)⟩
      obtain ⟨wc, hwc2⟩ : ∃ x, r[h.wtaxCurrency]? = some x :=
        ⟨_, List.getElem?_eq_getElem (by omega)⟩
      obtain ⟨tick, htick⟩ : ∃ x, r[h.ticker]? = some x :=
        ⟨_, List.getElem?_eq_getElem (by omega)⟩
      cases hca : company_address tick places with
      | none =>
        refine Or.inr (Or.inl ⟨isin, tick, nm, ?_⟩)
        simp [processT212Row, hmatch, hdate, hisin, hnm, hvalue, hwt, hwc2,
          htick, hca]
      | some p =>
        obtain ⟨addr, ctry⟩ := p
        cases hcv : convert_value date wt wc rates with
        | none =>
          refine Or.inr (Or.inr (Or.inl ⟨wc, ?_⟩))
          simp [processT212Row, hmatch, hdate, hisin, hnm, hvalue, hwt,
            hwc2, htick, hca, hcv]
        | some tax =>
          refine Or.inr (Or.inr (Or.inr
            ⟨⟨date, isin, nm, addr, ctry, value, tax⟩, ?_⟩))
          simp [processT212Row, hmatch, hdate, hisin, hnm, hvalue, hwt,
            hwc2, htick, hca, hcv]
    · exact Or.inl (by simp [processT212Row, hmatch])

/-- Claim C8 amended witness: a non-dividend row is ignored; a 7-field row
under an 8-field header aborts the run; a run over one full-length record
completes with that record's outcome; and a concrete delivered record's
outcome is one of the four reachable ones (here: the address-lookup
skip). -/
theorem C8_reader_aborts_on_missing_column_witness :
    processT212Row ⟨0, 1, 2, 3, 4, 5, 6, 7⟩ [("T", "A", "US")] [] ["Other"]
        = .ignored ∧
      load_t212_dividends_run 8 ⟨0, 1, 2, 3, 4, 5, 6, 7⟩ [("T", "A", "US")]
          [] [["Dividend (Ordinary)", "2023-01-02", "US1", "N", "1.0",
            "0.5", "USD"]] = none ∧
      load_t212_dividends_run 8 ⟨0, 1, 2, 3, 4, 5, 6, 7⟩ [("T", "A", "US")]
          [] [["Dividend (Ordinary)", "2023-01-02", "US1", "N", "1.0",
            "0.5", "USD", "X"]] =
        some (load_t212_dividends ⟨0, 1, 2, 3, 4, 5, 6, 7⟩ [("T", "A", "US")]
            [] [["Dividend (Ordinary)", "2023-01-02", "US1", "N", "1.0",
              "0.5", "USD", "X"]],
          t212Diagnostics ⟨0, 1, 2, 3, 4, 5, 6, 7⟩ [("T", "A", "US")] []
            [["Dividend (Ordinary)", "2023-01-02", "US1", "N", "1.0",
              "0.5", "USD", "X"]]) ∧
      (processT212Row ⟨0, 1, 2, 3, 4, 5, 6, 7⟩ [("T", "A", "US")] []
          ["Dividend (Ordinary)", "2023-01-02", "US1", "N", "1.0", "0.5",
            "USD", "X"] = .ignored ∨
        (∃ isin tick nm, processT212Row ⟨0, 1, 2, 3, 4, 5, 6, 7⟩
            [("T", "A", "US")] []
            ["Dividend (Ordinary)", "2023-01-02", "US1", "N", "1.0", "0.5",
              "USD", "X"] =
          .skipped ("No address for ISIN " ++ isin ++ ", " ++ tick ++
            ", " ++ nm)) ∨
        (∃ cur, processT212Row ⟨0, 1, 2, 3, 4, 5, 6, 7⟩ [("T", "A", "US")]
            []
            ["Dividend (Ordinary)", "2023-01-02", "US1", "N", "1.0", "0.5",
              "USD", "X"] =
          .skipped ("Did not find an exchange rate for " ++ cur ++ "!")) ∨
        ∃ d, processT212Row ⟨0, 1, 2, 3, 4, 5, 6, 7⟩ [("T", "A", "US")] []
            ["Dividend (Ordinary)", "2023-01-02", "US1", "N", "1.0", "0.5",
              "USD", "X"] = .emitted d) :=
  ⟨C8_reader_aborts_on_missing_column.1 ⟨0, 1, 2, 3, 4, 5, 6, 7⟩
      [("T", "A", "US")] [] ["Other"] (by decide),
    C8_reader_aborts_on_missing_column.2.1 8 ⟨0, 1, 2, 3, 4, 5, 6, 7⟩
      [("T", "A", "US")] [] [] []
      ["Dividend (Ordinary)", "2023-01-02", "US1", "N", "1.0", "0.5", "USD"]
      (by decide),
    C8_reader_aborts_on_missing_column.2.2.1 8 ⟨0, 1, 2, 3, 4, 5, 6, 7⟩
      [("T", "A", "US")] []
      [["Dividend (Ordinary)", "2023-01-02", "US1", "N", "1.0", "0.5",
        "USD", "X"]] (by decide),
    C8_reader_aborts_on_missing_column.2.2.2 8 ⟨0, 1, 2, 3, 4, 5, 6, 7⟩
      [("T", "A", "US")] []
      ["Dividend (Ordinary)", "2023-01-02", "US1", "N", "1.0", "0.5",
        "USD", "X"]
      (by decide) (by decide) (by decide) (by decide) (by decide)
      (by decide) (by decide) (by decide) (by decide)⟩

/-- Claim C9: the writer's date-truncation always yields a value (the head
of a Rust character split is defined for every string, the empty string
included), so `formatLine` succeeds for every Dividend and the report
contains exactly one data line per Dividend — the skip-with-diagnostic
branch is unreachable. -/
theorem C9_writer_never_drops :
    (∀ l : List Char,
        (splitP isSep l).head? = some (l.takeWhile fun c => !isSep c)) ∧
      (∀ d : Dividend, ∃ line, formatLine d = some line) ∧
      ∀ ds : List Dividend, (writeLines ds).length = ds.length := by
  have hf : ∀ d : Dividend, ∃ line, formatLine d = some line := fun d =>
    ⟨_, formatLine_joinSep d⟩
  refine ⟨splitP_head isSep, hf, ?_⟩
  intro ds
  induction ds with
  | nil => rfl
  | cons d ds ih =>
    obtain ⟨line, hline⟩ := hf d
    simp only [writeLines, List.filterMap_cons, hline] at *
    simp [ih]

/-- Claim C10: FormatB amount cleaning removes every `'$'` wherever it
occurs (`removeChar` is the filter dropping all `'$'`), so the amount
`"1$0"` is read as the number 10 — a row with amount `"1$0"` and USD rate 2
is converted to `"20,00"`, the same as for the prefix-only `"$10"`. -/
theorem C10_dollar_removal :
    (∀ l : List Char, removeChar '$' l = l.filter fun c => c ≠ '$') ∧
      (load_revolut_dividends ⟨0, 1, 2, 3⟩ [("TICK", "Addr", "US")]
          [("2023-01-02", [("USD", ⟨2, 1⟩)])] [("TICK", "IS123", "Tick Co")]
          [["DIVIDEND", "2023-01-02", "TICK", "1$0"]]).map Dividend.amount
        = ["20,00"] ∧
      (load_revolut_dividends ⟨0, 1, 2, 3⟩ [("TICK", "Addr", "US")]
          [("2023-01-02", [("USD", ⟨2, 1⟩)])] [("TICK", "IS123", "Tick Co")]
          [["DIVIDEND", "2023-01-02", "TICK", "$10"]]).map Dividend.amount
        = ["20,00"] :=
  ⟨removeChar_eq_filter '$', by decide, by decide⟩

end FursTaxes
